import Mathlib

/-!
# RideCasts front end (`src/frontend/public/app.js`)

A shallow embedding of the application-state logic of the forecast viewer:
the view clamp, the colour and elevation ramps, the per-hour projection,
the playback controller, the forecast loader and the tooltip placement.

JavaScript numbers that reach the code from the JSON documents or from the
rendering engine are finite doubles; they are embedded as rationals (every
finite double is a rational, and `<`, `Math.min`, `Math.max` are exact on
them).  `undefined` and `NaN` are kept as separate values where the code can
meet or produce them.
-/

namespace RideCasts

/-! ## JavaScript values -/

/-- A JavaScript value as the colour and elevation code meets it:
`undefined` (a key missing from a `Map`), `NaN`, or a finite number. -/
inductive JSVal where
  | undefined
  | nan
  | num (q : ℚ)
  deriving DecidableEq

/-- The expression `value || 0`: `undefined`, `NaN` and `0` are falsy and give `0`,
every other number is kept. -/
def orZero : JSVal → JSVal
  | .num q => if q = 0 then .num 0 else .num q
  | _ => .num 0

/-- The abstract operation `ToNumber` on the values above. -/
def toNumber : JSVal → JSVal
  | .undefined => .nan
  | v => v

/-- The call `Math.max(a, b)`: `NaN` when an argument converts to `NaN`. -/
def mathMax (a b : JSVal) : JSVal :=
  match toNumber a, toNumber b with
  | .num x, .num y => .num (max x y)
  | _, _ => .nan

/-- The comparison `v < c` against a numeric literal: false when `v` is `NaN`. -/
def jsLt (v : JSVal) (c : ℚ) : Bool :=
  match toNumber v with
  | .num x => decide (x < c)
  | _ => false

/-! ## View clamp (`app.js` lines 22-29, 68-79) -/

/-- The record `VIEW_LIMITS`. -/
structure ViewLimits where
  minLon : ℚ
  maxLon : ℚ
  minLat : ℚ
  maxLat : ℚ
  minZoom : ℚ
  maxZoom : ℚ

/-- The constant `VIEW_LIMITS` of the source. -/
def VIEW_LIMITS : ViewLimits where
  minLon := -74.8
  maxLon := -73.2
  minLat := 40.2
  maxLat := 41.1
  minZoom := 8.2
  maxZoom := 13.8

/-- The camera state handed over by the rendering engine. -/
structure ViewState where
  longitude : ℚ
  latitude : ℚ
  zoom : ℚ
  pitch : ℚ
  bearing : ℚ
  deriving DecidableEq

/-- The function `clamp(val, min, max) = Math.min(max, Math.max(min, val))`. -/
def clamp (val lo hi : ℚ) : ℚ := min hi (max lo val)

/-- The function `clampViewState`: the spread keeps every field, then longitude,
latitude and zoom are overwritten by their clamped values. -/
def clampViewState (viewState : ViewState) : ViewState :=
  { viewState with
    longitude := clamp viewState.longitude VIEW_LIMITS.minLon VIEW_LIMITS.maxLon
    latitude := clamp viewState.latitude VIEW_LIMITS.minLat VIEW_LIMITS.maxLat
    zoom := clamp viewState.zoom VIEW_LIMITS.minZoom VIEW_LIMITS.maxZoom }

/-! ## Colour ramp (`app.js` lines 93-101) -/

/-- The function `predictionColor`: an RGBA quadruple. -/
def predictionColor (value : JSVal) : List Nat :=
  let v := mathMax (.num 0) (orZero value)
  if jsLt v 25 then [67, 150, 185, 210]
  else if jsLt v 75 then [120, 224, 205, 210]
  else if jsLt v 150 then [224, 253, 188, 215]
  else if jsLt v 350 then [251, 237, 184, 220]
  else if jsLt v 750 then [242, 177, 99, 225]
  else [193, 68, 82, 235]

/-- The six colours in the order the source returns them, coldest first. -/
def heatPalette : List (List Nat) :=
  [[67, 150, 185, 210], [120, 224, 205, 210], [224, 253, 188, 215],
   [251, 237, 184, 220], [242, 177, 99, 225], [193, 68, 82, 235]]

/-- The heat tier of a colour: its position in the palette. -/
def heatTier (c : List Nat) : Nat := heatPalette.indexOf c

/-- The value the specification lets the ramp see: a negative or missing value counts as 0. -/
def effectiveValue : JSVal → ℚ
  | .num q => if q < 0 then 0 else q
  | _ => 0

/-- The specification's buckets `[0,25), [25,75), [75,150), [150,350), [350,750), [750,∞)`
with the colour of each: lower bound, upper bound (`none` for ∞), colour. -/
def specBuckets : List (ℚ × Option ℚ × List Nat) :=
  [(0, some 25, [67, 150, 185, 210]),
   (25, some 75, [120, 224, 205, 210]),
   (75, some 150, [224, 253, 188, 215]),
   (150, some 350, [251, 237, 184, 220]),
   (350, some 750, [242, 177, 99, 225]),
   (750, none, [193, 68, 82, 235])]

/-- The five breakpoints of the specification. -/
def specBreakpoints : List ℚ := [25, 75, 150, 350, 750]

/-! ## Forecast rows, strings and maps -/

/-- A JavaScript string: its sequence of UTF-16 code units. -/
abbrev JSString := List Nat

/-- The code units of an ASCII text, to write strings down. -/
def str (s : String) : JSString := s.toList.map Char.toNat

/-- The order `Array.prototype.sort` uses without a comparator on strings:
lexicographic on code units (`a` is placed before `b` when `strLe a b`). -/
def strLe : JSString → JSString → Bool
  | [], _ => true
  | _ :: _, [] => false
  | a :: as, b :: bs => if a < b then true else if b < a then false else strLe as bs

/-- One element of `forecast.predictions`. -/
structure ForecastRow where
  PULocationID : Int
  hour : JSString
  prediction : ℚ
  deriving DecidableEq

/-- One feature of the zone dataset: its `properties.PULocationID` and `properties.zone`. -/
structure ZoneFeature where
  PULocationID : Int
  zone : Option JSString
  deriving DecidableEq

/-- A JavaScript `Map` from zone id to number: its entries in insertion order. -/
abbrev JSMap := List (Int × ℚ)

/-- The method `Map.prototype.set`: an existing key keeps its place and gets the new value,
a new key is appended. -/
def mapSet : JSMap → Int → ℚ → JSMap
  | [], k, v => [(k, v)]
  | (k0, v0) :: rest, k, v => if k0 = k then (k, v) :: rest else (k0, v0) :: mapSet rest k v

/-- The method `Map.prototype.get`: `undefined` for a key that is absent. -/
def mapGet : JSMap → Int → JSVal
  | [], _ => .undefined
  | (k0, v0) :: rest, k => if k0 = k then .num v0 else mapGet rest k

/-- The keys of a map, in insertion order. -/
def mapKeys (m : JSMap) : List Int := m.map Prod.fst

/-- The constructor `new Map(entries)`: the entries are set one after the other. -/
def mapFromEntries (entries : List (Int × ℚ)) : JSMap :=
  entries.foldl (fun m e => mapSet m e.1 e.2) []

/-- The constructor `new Set(values)` followed by a spread into an array: the distinct
values in order of first occurrence. -/
def setFromValues (values : List JSString) : List JSString :=
  values.foldl (fun acc x => if x ∈ acc then acc else acc ++ [x]) []

/-- The call `Math.max(first, ...rest)` on finite numbers. -/
def mathMaxList (first : ℚ) (rest : List ℚ) : ℚ := rest.foldl max first

/-! ## Application state (`app.js` lines 9-20) -/

/-- The module-level object `state`, together with what the handlers last wrote into the
page: the slider position, the hour handed to the label, the rows of the top-zones list and
the `aria-label` of the play button (`none` before the first write). -/
structure State where
  zones : List ZoneFeature
  forecast : List ForecastRow
  hours : List JSString
  selectedHourIndex : Nat
  lookup : JSMap
  currentRows : List ForecastRow
  maxPred : ℚ
  playTimer : Option Nat
  sliderValue : Nat
  hourLabel : Option JSString
  topZones : List ForecastRow
  playBtnLabel : Option String
  deriving DecidableEq

/-- The array `[...rows].sort((a, b) => b.prediction - a.prediction)`: the sort is stable and
puts `a` no later than `b` when `a.prediction ≥ b.prediction`. -/
def sortByPrediction (rows : List ForecastRow) : List ForecastRow :=
  rows.insertionSort (fun a b => a.prediction ≥ b.prediction)

/-- The function `updateStats`: the label gets the hour, the list the first five sorted rows. -/
def updateStats (hour : Option JSString) (s : State) : State :=
  let rows := s.currentRows
  let sorted := sortByPrediction rows
  { s with hourLabel := hour, topZones := sorted.take 5 }

/-- The function `updateHour`; `hours[index]` is `undefined` (here `none`) out of range,
and no row has that hour. The closing `renderMap()` hands a layer to the engine and
leaves the state as it is. -/
def updateHour (index : Nat) (s : State) : State :=
  let hour := s.hours[index]?
  let rows := s.forecast.filter (fun p => decide (some p.hour = hour))
  let s1 : State :=
    { s with
      selectedHourIndex := index
      currentRows := rows
      lookup := mapFromEntries (rows.map (fun r => (r.PULocationID, r.prediction)))
      maxPred := mathMaxList 1 (rows.map (fun r => r.prediction))
      sliderValue := index }
  updateStats hour s1

/-- The hour list of `init`: `[...new Set(forecast.predictions.map((p) => p.hour))].sort()`. -/
def computeHours (predictions : List ForecastRow) : List JSString :=
  (setFromValues (predictions.map (fun p => p.hour))).insertionSort (fun a b => strLe a b = true)

/-! ## Elevation (`app.js` lines 148-152) -/

/-- The call `Math.sqrt(v)`: `NaN` for `NaN` and for a negative number; on the other numbers
the root is the parameter `root` (the rounded square root of the engine). -/
def mathSqrt (root : ℚ → ℚ) (v : JSVal) : JSVal :=
  match toNumber v with
  | .num x => if x < 0 then .nan else .num (root x)
  | _ => .nan

/-- The product `v * c` with a numeric literal: `NaN` stays `NaN`. -/
def jsTimes (v : JSVal) (c : ℚ) : JSVal :=
  match toNumber v with
  | .num x => .num (x * c)
  | _ => .nan

/-- The accessor `getElevation` of the layer. -/
def getElevation (root : ℚ → ℚ) (s : State) (f : ZoneFeature) : JSVal :=
  let zone := f.PULocationID
  let pred := orZero (mapGet s.lookup zone)
  jsTimes (mathSqrt root pred) 35

/-- The accessor `getFillColor` of the layer. -/
def getFillColor (s : State) (f : ZoneFeature) : List Nat :=
  let zone := f.PULocationID
  let pred := orZero (mapGet s.lookup zone)
  predictionColor pred

/-! ## Tooltip placement (`app.js` lines 161-187) -/

/-- The offset `(left, top)` the hover handler puts into the tooltip's transform, from the
pointer position, the size of the map rectangle and the size of the tooltip rectangle. -/
def tooltipOffset (x y mapWidth mapHeight tipWidth tipHeight : ℚ) : ℚ × ℚ :=
  let pad : ℚ := 12
  let left := x + pad
  let top := y + pad
  let left := min left (mapWidth - tipWidth - pad)
  let top := min top (mapHeight - tipHeight - pad)
  let left := max pad left
  let top := max pad top
  (left, top)

/-- The handler `onHover`: `none` when the tooltip is hidden (no picked object),
the offset of the shown tooltip otherwise. -/
def onHover (object : Option ZoneFeature) (x y mapWidth mapHeight tipWidth tipHeight : ℚ) :
    Option (ℚ × ℚ) :=
  match object with
  | none => none
  | some _ => some (tooltipOffset x y mapWidth mapHeight tipWidth tipHeight)

/-! ## Playback (`app.js` lines 205-224, 252-260) -/

/-- The page at run time: the application state and the browser's interval timers.
`setInterval` hands out the handles `timerCounter + 1, timerCounter + 2, ...`,
all greater than zero; `timers` lists the handles that are live. -/
structure World where
  state : State
  timers : List Nat
  timerCounter : Nat
  deriving DecidableEq

/-- The truthiness test `if (state.playTimer)`: `null` and the number 0 are falsy. -/
def timerTruthy : Option Nat → Bool
  | none => false
  | some id => decide (id ≠ 0)

/-- The call `clearInterval(id)`. -/
def clearInterval (id : Nat) (w : World) : World :=
  { w with timers := w.timers.filter (fun t => decide (t ≠ id)) }

/-- The call `setInterval(callback, 420)`: the new handle and the world it is live in. -/
def setInterval (w : World) : Nat × World :=
  let id := w.timerCounter + 1
  (id, { w with timers := w.timers ++ [id], timerCounter := id })

/-- The function `stopPlayback`. -/
def stopPlayback (w : World) : World :=
  let w1 :=
    if timerTruthy w.state.playTimer then
      match w.state.playTimer with
      | some id =>
        let w0 := clearInterval id w
        { w0 with state := { w0.state with playTimer := none } }
      | none => w
    else w
  { w1 with state := { w1.state with playBtnLabel := some "Play" } }

/-- The function `startPlayback`. -/
def startPlayback (w : World) : World :=
  let w1 := stopPlayback w
  let w2 : World := { w1 with state := { w1.state with playBtnLabel := some "Pause" } }
  let r := setInterval w2
  { r.2 with state := { r.2.state with playTimer := some r.1 } }

/-- The index the interval callback passes to `updateHour`. -/
def tickNext (s : State) : Nat :=
  let max : Int := Max.max 0 ((s.hours.length : Int) - 1)
  let next : Int := (s.selectedHourIndex : Int) + 1
  let next : Int := if next > max then 0 else next
  next.toNat

/-- The interval callback of `startPlayback`: one playback tick. -/
def tick (s : State) : State := updateHour (tickNext s) s

/-- The events of the page after start-up: direct calls of the two playback functions, a click
on the play button, an input on the slider with its value, and a firing of a live timer. -/
inductive Event where
  | startPlayback
  | stopPlayback
  | playClick
  | sliderInput (value : Nat)
  | timerFires
  deriving DecidableEq

/-- The handler run for one event. -/
def step (w : World) : Event → World
  | .startPlayback => startPlayback w
  | .stopPlayback => stopPlayback w
  | .playClick => if timerTruthy w.state.playTimer then stopPlayback w else startPlayback w
  | .sliderInput value =>
    let w1 := stopPlayback w
    { w1 with state := updateHour value w1.state }
  | .timerFires => if w.timers = [] then w else { w with state := tick w.state }

/-- The handlers run for a sequence of events, in order. -/
def run (w : World) (events : List Event) : World := events.foldl step w

/-! ## Loading and start-up (`app.js` lines 81-91, 226-308) -/

/-- The outcome of one `fetch(url)` as `fetchFirstAvailable` uses it: a response with
`res.ok` whose `res.json()` resolves with the parsed body, a response with `res.ok` whose
`res.json()` rejects (the body is not JSON), a response with a non-success status, or a
transport failure (the promise of `fetch` rejects). -/
inductive FetchOutcome (β : Type) where
  | success (body : β)
  | unparsable
  | badStatus (status : Nat)
  | transportFailure
  deriving DecidableEq

/-- The test `res.ok` on an outcome; a transport failure yields no response at all. -/
def respondedOk {β : Type} : FetchOutcome β → Bool
  | .success _ => true
  | .unparsable => true
  | .badStatus _ => false
  | .transportFailure => false

/-- What the promise of `fetchFirstAvailable` can reject with: the error thrown after the loop
with its message, or the rejection of `res.json()`. -/
inductive FetchError where
  | load (message : String)
  | parse
  deriving DecidableEq

/-- The function `fetchFirstAvailable`: the result (the body, or the error the promise rejects
with) and the list of the URLs that were requested, in order. On a response with `res.ok`
the function returns `res.json()` without awaiting it inside the `try`: the loop ends there,
and a rejection of `res.json()` becomes the rejection of the function itself. -/
def fetchFirstAvailable {β : Type} (fetch : String → FetchOutcome β) :
    List String → Except FetchError β × List String
  | [] => (.error (.load "Could not load forecast file from known paths."), [])
  | url :: rest =>
    match fetch url with
    | .success body => (.ok body, [url])
    | .unparsable => (.error .parse, [url])
    | _ =>
      let r := fetchFirstAvailable fetch rest
      (r.1, url :: r.2)

/-- The constant `FORECAST_URLS`. -/
def FORECAST_URLS : List String :=
  ["./data/forecast_latest.json", "/data/forecast/forecast_latest.json"]

/-- The loading overlay element: its `hidden` and `error` classes. -/
structure Overlay where
  hidden : Bool
  error : Bool
  deriving DecidableEq

/-- The functions of the page that start-up can reach, for the trace of a run. -/
inductive Call where
  | updateHour (index : Nat)
  | renderMap
  | hideLoading
  | consoleError
  | showLoadingError
  deriving DecidableEq

/-- The function `hideLoading` on the overlay element (`none`: the element is absent). -/
def hideLoading (overlay : Option Overlay) : Option Overlay :=
  overlay.map (fun o => { o with hidden := true })

/-- The function `showLoadingError` on the overlay element. -/
def showLoadingError (overlay : Option Overlay) : Option Overlay :=
  overlay.map (fun _ => { hidden := false, error := true })

/-- The state object as the module creates it. -/
def initialState : State where
  zones := []
  forecast := []
  hours := []
  selectedHourIndex := 0
  lookup := []
  currentRows := []
  maxPred := 1
  playTimer := none
  sliderValue := 0
  hourLabel := none
  topZones := []
  playBtnLabel := none

/-- The state after the synchronous part of `init` that follows a successful load,
`updateHour(0)` included. -/
def loadedState (zones : List ZoneFeature) (predictions : List ForecastRow) : State :=
  updateHour 0
    { initialState with
      zones := zones
      forecast := predictions
      hours := computeHours predictions
      sliderValue := 0 }

/-- What a run of the module's last statement, `init().catch(...)`, leaves behind. -/
structure InitRun where
  world : Option World
  overlay : Option Overlay
  calls : List Call
  requested : List String

/-- The statement `init().catch(...)`: `zones` is the outcome of the zone request (`none` when
its promise rejects), `fetch` the outcome of a forecast request, `overlay` the overlay
element and `counter` the browser's timer counter. Both loads must succeed for the part
after `Promise.all` to run; a rejection goes to the handler of `catch`. -/
def init (zones : Option (List ZoneFeature)) (fetch : String → FetchOutcome (List ForecastRow))
    (overlay : Option Overlay) (counter : Nat) : InitRun :=
  let r := fetchFirstAvailable fetch FORECAST_URLS
  match zones, r.1 with
  | some zs, .ok predictions =>
    { world := some { state := loadedState zs predictions, timers := [], timerCounter := counter }
      overlay := hideLoading overlay
      calls := [.updateHour 0, .renderMap, .hideLoading]
      requested := r.2 }
  | _, _ =>
    { world := none
      overlay := showLoadingError overlay
      calls := [.consoleError, .showLoadingError]
      requested := r.2 }

/-! ## Sample data -/

/-- A small forecast: two zones in the first hour, and zone 1 with a negative predicted
value in the second hour. -/
def sampleForecast : List ForecastRow :=
  [⟨1, str "2024-01-01T01:00", -4⟩,
   ⟨1, str "2024-01-01T00:00", 100⟩,
   ⟨2, str "2024-01-01T00:00", 30⟩]

/-- The zones of the sample. -/
def sampleZones : List ZoneFeature := [⟨1, none⟩, ⟨2, none⟩, ⟨3, none⟩]

/-- The page state after start-up on the sample data. -/
def sampleState : State := loadedState sampleZones sampleForecast

/-- A network where the first forecast candidate answers with status 200 and a body that is
not JSON (a fallback page), and the second one serves the sample forecast. -/
def fallbackPageFetch (url : String) : FetchOutcome (List ForecastRow) :=
  if url = "./data/forecast_latest.json" then .unparsable else .success sampleForecast

/-- A network where the first forecast candidate answers 404 and the second cannot be reached. -/
def failingFetch (url : String) : FetchOutcome (List ForecastRow) :=
  if url = "./data/forecast_latest.json" then .badStatus 404 else .transportFailure

/-! ## Specification-side predicates -/

/-- A view state whose longitude, latitude and zoom lie within `VIEW_LIMITS`. -/
def InViewLimits (v : ViewState) : Prop :=
  VIEW_LIMITS.minLon ≤ v.longitude ∧ v.longitude ≤ VIEW_LIMITS.maxLon ∧
  VIEW_LIMITS.minLat ≤ v.latitude ∧ v.latitude ≤ VIEW_LIMITS.maxLat ∧
  VIEW_LIMITS.minZoom ≤ v.zoom ∧ v.zoom ≤ VIEW_LIMITS.maxZoom

/-! ## View clamp: proofs -/

theorem clamp_mem (val lo hi : ℚ) (h : lo ≤ hi) : lo ≤ clamp val lo hi ∧ clamp val lo hi ≤ hi := by
  unfold clamp
  exact ⟨le_min h (le_max_left _ _), min_le_left _ _⟩

theorem clamp_of_mem (val lo hi : ℚ) (h1 : lo ≤ val) (h2 : val ≤ hi) : clamp val lo hi = val := by
  unfold clamp
  rw [max_eq_right h1, min_eq_right h2]

theorem clamp_below (val lo hi : ℚ) (h : lo ≤ hi) (h1 : val ≤ lo) : clamp val lo hi = lo := by
  unfold clamp
  rw [max_eq_left h1, min_eq_right h]

theorem clamp_above (val lo hi : ℚ) (h1 : hi ≤ val) : clamp val lo hi = hi := by
  unfold clamp
  exact min_eq_left (le_trans h1 (le_max_right _ _))

theorem clampViewState_inLimits (v : ViewState) : InViewLimits (clampViewState v) := by
  have a := clamp_mem v.longitude VIEW_LIMITS.minLon VIEW_LIMITS.maxLon (by norm_num [VIEW_LIMITS])
  have b := clamp_mem v.latitude VIEW_LIMITS.minLat VIEW_LIMITS.maxLat (by norm_num [VIEW_LIMITS])
  have c := clamp_mem v.zoom VIEW_LIMITS.minZoom VIEW_LIMITS.maxZoom (by norm_num [VIEW_LIMITS])
  exact ⟨a.1, a.2, b.1, b.2, c.1, c.2⟩

theorem clampViewState_fixed (v : ViewState) (h : InViewLimits v) : clampViewState v = v := by
  obtain ⟨h1, h2, h3, h4, h5, h6⟩ := h
  unfold clampViewState
  rw [clamp_of_mem _ _ _ h1 h2, clamp_of_mem _ _ _ h3 h4, clamp_of_mem _ _ _ h5 h6]

/-- C4: `clampViewState` is a projection onto the viewing box. Every result lies within
`VIEW_LIMITS`; a view state already within the limits is returned unchanged in every field;
pitch and bearing are never touched; a longitude, latitude or zoom below its lower bound
becomes that bound and one above its upper bound becomes that bound (longitude -80 becomes
-74.8); and clamping twice is clamping once. -/
theorem clampViewState_projection :
    (∀ v : ViewState, InViewLimits (clampViewState v)) ∧
    (∀ v : ViewState, InViewLimits v → clampViewState v = v) ∧
    (∀ v : ViewState, (clampViewState v).pitch = v.pitch ∧
      (clampViewState v).bearing = v.bearing) ∧
    (∀ v : ViewState,
      (v.longitude ≤ -74.8 → (clampViewState v).longitude = -74.8) ∧
      (-73.2 ≤ v.longitude → (clampViewState v).longitude = -73.2) ∧
      (v.latitude ≤ 40.2 → (clampViewState v).latitude = 40.2) ∧
      (41.1 ≤ v.latitude → (clampViewState v).latitude = 41.1) ∧
      (v.zoom ≤ 8.2 → (clampViewState v).zoom = 8.2) ∧
      (13.8 ≤ v.zoom → (clampViewState v).zoom = 13.8)) ∧
    (∀ v : ViewState, v.longitude = -80 → (clampViewState v).longitude = -74.8) ∧
    (∀ v : ViewState, clampViewState (clampViewState v) = clampViewState v) := by
  have pin : ∀ v : ViewState,
      (v.longitude ≤ -74.8 → (clampViewState v).longitude = -74.8) ∧
      (-73.2 ≤ v.longitude → (clampViewState v).longitude = -73.2) ∧
      (v.latitude ≤ 40.2 → (clampViewState v).latitude = 40.2) ∧
      (41.1 ≤ v.latitude → (clampViewState v).latitude = 41.1) ∧
      (v.zoom ≤ 8.2 → (clampViewState v).zoom = 8.2) ∧
      (13.8 ≤ v.zoom → (clampViewState v).zoom = 13.8) := by
    intro v
    refine ⟨fun h => ?_, fun h => ?_, fun h => ?_, fun h => ?_, fun h => ?_, fun h => ?_⟩
    · exact clamp_below _ _ _ (by norm_num [VIEW_LIMITS]) h
    · exact clamp_above _ _ _ h
    · exact clamp_below _ _ _ (by norm_num [VIEW_LIMITS]) h
    · exact clamp_above _ _ _ h
    · exact clamp_below _ _ _ (by norm_num [VIEW_LIMITS]) h
    · exact clamp_above _ _ _ h
  refine ⟨clampViewState_inLimits, clampViewState_fixed, fun v => ⟨rfl, rfl⟩, pin, ?_, ?_⟩
  · intro v h
    exact (pin v).1 (by rw [h]; norm_num)
  · intro v
    exact clampViewState_fixed _ (clampViewState_inLimits v)

/-- C4 at the desktop reset view (inside the limits, returned unchanged). -/
theorem clampViewState_projection_witness :
    InViewLimits ⟨-73.95, 40.73, 10, 45, 0⟩ ∧
    clampViewState ⟨-73.95, 40.73, 10, 45, 0⟩ = ⟨-73.95, 40.73, 10, 45, 0⟩ :=
  ⟨by norm_num [InViewLimits, VIEW_LIMITS],
   clampViewState_projection.2.1 ⟨-73.95, 40.73, 10, 45, 0⟩
     (by norm_num [InViewLimits, VIEW_LIMITS])⟩

/-! ## Tooltip placement: proofs -/

/-- C10, refuted as stated: in a map 100 wide, a tooltip 95 wide hovered at the origin is put at
`left = 12`, and its right edge 107 is outside the map. -/
theorem tooltipOffset_overflow :
    ¬ (0 ≤ (tooltipOffset 0 0 100 100 95 20).1 ∧
       (tooltipOffset 0 0 100 100 95 20).1 + 95 ≤ 100 ∧
       0 ≤ (tooltipOffset 0 0 100 100 95 20).2 ∧
       (tooltipOffset 0 0 100 100 95 20).2 + 20 ≤ 100) := by
  norm_num [tooltipOffset]

/-- C10, amended: the offset is never less than the padding, `12 ≤ left` and `12 ≤ top` (so
`0 ≤ left` and `0 ≤ top`), and the tooltip's far edges stay inside the map exactly when the
tooltip and one padding fit: `left + w ≤ W` iff `w + 12 ≤ W`, and `top + h ≤ H` iff
`h + 12 ≤ H`. -/
theorem tooltipOffset_bounds (x y W H w h : ℚ) :
    12 ≤ (tooltipOffset x y W H w h).1 ∧ 12 ≤ (tooltipOffset x y W H w h).2 ∧
    ((tooltipOffset x y W H w h).1 + w ≤ W ↔ w + 12 ≤ W) ∧
    ((tooltipOffset x y W H w h).2 + h ≤ H ↔ h + 12 ≤ H) := by
  have key : ∀ p S t : ℚ, 12 ≤ max 12 (min (p + 12) (S - t - 12)) ∧
      (max 12 (min (p + 12) (S - t - 12)) + t ≤ S ↔ t + 12 ≤ S) := by
    intro p S t
    refine ⟨le_max_left _ _, ?_, ?_⟩
    · intro hle
      have := le_max_left (12 : ℚ) (min (p + 12) (S - t - 12))
      linarith
    · intro hfit
      have h1 : min (p + 12) (S - t - 12) ≤ S - t - 12 := min_le_right _ _
      have h2 : max 12 (min (p + 12) (S - t - 12)) ≤ S - t := by
        apply max_le <;> linarith
      linarith
  exact ⟨(key x W w).1, (key y H h).1, (key x W w).2, (key y H h).2⟩

/-! ## Colour ramp: proofs -/

theorem predictionColor_eq (value : JSVal) :
    predictionColor value =
      if effectiveValue value < 25 then [67, 150, 185, 210]
      else if effectiveValue value < 75 then [120, 224, 205, 210]
      else if effectiveValue value < 150 then [224, 253, 188, 215]
      else if effectiveValue value < 350 then [251, 237, 184, 220]
      else if effectiveValue value < 750 then [242, 177, 99, 225]
      else [193, 68, 82, 235] := by
  have hv : mathMax (.num 0) (orZero value) = .num (effectiveValue value) := by
    cases value with
    | undefined => simp [orZero, mathMax, toNumber, effectiveValue]
    | nan => simp [orZero, mathMax, toNumber, effectiveValue]
    | num q =>
      by_cases h0 : q = 0
      · subst h0
        simp [orZero, mathMax, toNumber, effectiveValue]
      · by_cases hneg : q < 0
        · simp [orZero, mathMax, toNumber, effectiveValue, h0, hneg, le_of_lt hneg]
        · simp [orZero, mathMax, toNumber, effectiveValue, h0, hneg, le_of_not_lt hneg]
  unfold predictionColor
  simp only [hv, jsLt, toNumber, decide_eq_true_eq]

theorem heatTier_predictionColor (value : JSVal) :
    heatTier (predictionColor value) =
      if effectiveValue value < 25 then 0
      else if effectiveValue value < 75 then 1
      else if effectiveValue value < 150 then 2
      else if effectiveValue value < 350 then 3
      else if effectiveValue value < 750 then 4
      else 5 := by
  rw [predictionColor_eq]
  split_ifs <;> decide

theorem effectiveValue_mono (a b : ℚ) (h : a ≤ b) :
    effectiveValue (.num a) ≤ effectiveValue (.num b) := by
  simp only [effectiveValue]
  split_ifs <;> linarith

theorem effectiveValue_lt_iff (a t : ℚ) (ht : 0 < t) : effectiveValue (.num a) < t ↔ a < t := by
  simp only [effectiveValue]
  split_ifs with h
  · exact ⟨fun _ => lt_trans h ht, fun _ => ht⟩
  · exact Iff.rfl

theorem le_effectiveValue_iff (b t : ℚ) (ht : 0 < t) : t ≤ effectiveValue (.num b) ↔ t ≤ b := by
  simp only [effectiveValue]
  split_ifs with h
  · exact ⟨fun h1 => absurd (lt_of_lt_of_le ht h1) (lt_irrefl _), fun h1 => by linarith⟩
  · exact Iff.rfl

theorem filter_le_length (l : List ℚ) (a b : ℚ) (hab : a ≤ b) :
    (l.filter (fun t => decide (t ≤ a))).length ≤ (l.filter (fun t => decide (t ≤ b))).length ∧
    ((l.filter (fun t => decide (t ≤ a))).length < (l.filter (fun t => decide (t ≤ b))).length ↔
      ∃ t ∈ l, a < t ∧ t ≤ b) := by
  induction l with
  | nil => simp
  | cons x xs ih =>
    obtain ⟨ih1, ih2⟩ := ih
    by_cases hxa : x ≤ a
    · have hxb : x ≤ b := le_trans hxa hab
      have hna : ¬ a < x := not_lt.mpr hxa
      simp only [List.filter_cons, hxa, hxb, decide_True, if_true, List.length_cons,
        List.mem_cons, exists_eq_or_imp, hna, false_and, false_or]
      exact ⟨by omega, by rw [← ih2]; omega⟩
    · by_cases hxb : x ≤ b
      · have hax : a < x := not_le.mp hxa
        simp only [List.filter_cons, hxa, hxb, decide_True, decide_False, if_true,
          Bool.false_eq_true, if_false,
          List.length_cons, List.mem_cons, exists_eq_or_imp, hax, true_and, true_or, iff_true]
        exact ⟨by omega, by omega⟩
      · simp only [List.filter_cons, hxa, hxb, decide_False, List.mem_cons,
          Bool.false_eq_true, if_false,
          exists_eq_or_imp, and_false, false_or]
        exact ⟨ih1, ih2⟩

theorem heatTier_eq_count (value : JSVal) :
    heatTier (predictionColor value) =
      (specBreakpoints.filter (fun t => decide (t ≤ effectiveValue value))).length := by
  rw [heatTier_predictionColor]
  generalize effectiveValue value = e
  simp only [specBreakpoints, List.filter_cons, List.filter_nil]
  rcases lt_or_le e 25 with h1 | h1
  · have n1 : ¬ (25 : ℚ) ≤ e := not_le.mpr h1
    have n2 : ¬ (75 : ℚ) ≤ e := by linarith
    have n3 : ¬ (150 : ℚ) ≤ e := by linarith
    have n4 : ¬ (350 : ℚ) ≤ e := by linarith
    have n5 : ¬ (750 : ℚ) ≤ e := by linarith
    simp [h1, n1, n2, n3, n4, n5]
  rcases lt_or_le e 75 with h2 | h2
  · have n0 : ¬ e < 25 := not_lt.mpr h1
    have n2 : ¬ (75 : ℚ) ≤ e := not_le.mpr h2
    have n3 : ¬ (150 : ℚ) ≤ e := by linarith
    have n4 : ¬ (350 : ℚ) ≤ e := by linarith
    have n5 : ¬ (750 : ℚ) ≤ e := by linarith
    simp [h1, h2, n0, n2, n3, n4, n5]
  rcases lt_or_le e 150 with h3 | h3
  · have n0 : ¬ e < 25 := not_lt.mpr h1
    have n1 : ¬ e < 75 := not_lt.mpr h2
    have n3 : ¬ (150 : ℚ) ≤ e := not_le.mpr h3
    have n4 : ¬ (350 : ℚ) ≤ e := by linarith
    have n5 : ¬ (750 : ℚ) ≤ e := by linarith
    simp [h1, h2, h3, n0, n1, n3, n4, n5]
  rcases lt_or_le e 350 with h4 | h4
  · have n0 : ¬ e < 25 := not_lt.mpr h1
    have n1 : ¬ e < 75 := not_lt.mpr h2
    have n2 : ¬ e < 150 := not_lt.mpr h3
    have n4 : ¬ (350 : ℚ) ≤ e := not_le.mpr h4
    have n5 : ¬ (750 : ℚ) ≤ e := by linarith
    simp [h1, h2, h3, h4, n0, n1, n2, n4, n5]
  rcases lt_or_le e 750 with h5 | h5
  · have n0 : ¬ e < 25 := not_lt.mpr h1
    have n1 : ¬ e < 75 := not_lt.mpr h2
    have n2 : ¬ e < 150 := not_lt.mpr h3
    have n3 : ¬ e < 350 := not_lt.mpr h4
    have n5 : ¬ (750 : ℚ) ≤ e := not_le.mpr h5
    simp [h1, h2, h3, h4, h5, n0, n1, n2, n3, n5]
  · have n0 : ¬ e < 25 := not_lt.mpr h1
    have n1 : ¬ e < 75 := not_lt.mpr h2
    have n2 : ¬ e < 150 := not_lt.mpr h3
    have n3 : ¬ e < 350 := not_lt.mpr h4
    have n4 : ¬ e < 750 := not_lt.mpr h5
    simp [h1, h2, h3, h4, h5, n0, n1, n2, n3, n4]

theorem specBreakpoints_pos (t : ℚ) (ht : t ∈ specBreakpoints) : 0 < t := by
  simp only [specBreakpoints, List.mem_cons, List.mem_singleton, List.not_mem_nil, or_false] at ht
  rcases ht with rfl | rfl | rfl | rfl | rfl <;> norm_num

/-- C2: `predictionColor` treats a negative or missing value as 0 and returns the colour of
the bucket among `[0,25), [25,75), [75,150), [150,350), [350,750), [750,∞)` that holds it;
for numbers `a ≤ b` the heat tier of the colour of `a` is at most that of `b`; the tier of
`b` is strictly higher exactly when one of the breakpoints 25, 75, 150, 350, 750 lies in
`(a, b]`; and `predictionColor(-5)` equals `predictionColor(0)`. -/
theorem predictionColor_buckets :
    (∀ value : JSVal, ∀ bucket ∈ specBuckets,
      bucket.1 ≤ effectiveValue value →
      (∀ hi, bucket.2.1 = some hi → effectiveValue value < hi) →
      predictionColor value = bucket.2.2) ∧
    (∀ a b : ℚ, a ≤ b →
      heatTier (predictionColor (.num a)) ≤ heatTier (predictionColor (.num b))) ∧
    (∀ a b : ℚ, a ≤ b →
      (heatTier (predictionColor (.num a)) < heatTier (predictionColor (.num b)) ↔
        ∃ t ∈ specBreakpoints, a < t ∧ t ≤ b)) ∧
    predictionColor (.num (-5)) = predictionColor (.num 0) ∧
    predictionColor .undefined = predictionColor (.num 0) ∧
    predictionColor .nan = predictionColor (.num 0) := by
  refine ⟨?_, ?_, ?_, ?_, ?_, ?_⟩
  · intro value bucket hb hlo hhi
    rw [predictionColor_eq]
    simp only [specBuckets, List.mem_cons, List.mem_singleton, List.not_mem_nil, or_false] at hb
    rcases hb with rfl | rfl | rfl | rfl | rfl | rfl
    · have := hhi 25 rfl
      simp [this]
    · have := hhi 75 rfl
      have h1 : ¬ effectiveValue value < 25 := not_lt.mpr hlo
      simp [this, h1]
    · have := hhi 150 rfl
      have h1 : ¬ effectiveValue value < 25 := not_lt.mpr (by simp at hlo; linarith)
      have h2 : ¬ effectiveValue value < 75 := not_lt.mpr hlo
      simp [this, h1, h2]
    · have := hhi 350 rfl
      have h1 : ¬ effectiveValue value < 25 := not_lt.mpr (by simp at hlo; linarith)
      have h2 : ¬ effectiveValue value < 75 := not_lt.mpr (by simp at hlo; linarith)
      have h3 : ¬ effectiveValue value < 150 := not_lt.mpr hlo
      simp [this, h1, h2, h3]
    · have := hhi 750 rfl
      have h1 : ¬ effectiveValue value < 25 := not_lt.mpr (by simp at hlo; linarith)
      have h2 : ¬ effectiveValue value < 75 := not_lt.mpr (by simp at hlo; linarith)
      have h3 : ¬ effectiveValue value < 150 := not_lt.mpr (by simp at hlo; linarith)
      have h4 : ¬ effectiveValue value < 350 := not_lt.mpr hlo
      simp [this, h1, h2, h3, h4]
    · have h1 : ¬ effectiveValue value < 25 := not_lt.mpr (by simp at hlo; linarith)
      have h2 : ¬ effectiveValue value < 75 := not_lt.mpr (by simp at hlo; linarith)
      have h3 : ¬ effectiveValue value < 150 := not_lt.mpr (by simp at hlo; linarith)
      have h4 : ¬ effectiveValue value < 350 := not_lt.mpr (by simp at hlo; linarith)
      have h5 : ¬ effectiveValue value < 750 := not_lt.mpr hlo
      simp [h1, h2, h3, h4, h5]
  · intro a b hab
    rw [heatTier_eq_count, heatTier_eq_count]
    exact (filter_le_length specBreakpoints _ _ (effectiveValue_mono a b hab)).1
  · intro a b hab
    rw [heatTier_eq_count, heatTier_eq_count]
    rw [(filter_le_length specBreakpoints _ _ (effectiveValue_mono a b hab)).2]
    constructor
    · rintro ⟨t, ht, h1, h2⟩
      have hp := specBreakpoints_pos t ht
      exact ⟨t, ht, (effectiveValue_lt_iff a t hp).mp h1, (le_effectiveValue_iff b t hp).mp h2⟩
    · rintro ⟨t, ht, h1, h2⟩
      have hp := specBreakpoints_pos t ht
      exact ⟨t, ht, (effectiveValue_lt_iff a t hp).mpr h1, (le_effectiveValue_iff b t hp).mpr h2⟩
  · rw [predictionColor_eq, predictionColor_eq]
    norm_num [effectiveValue]
  · rw [predictionColor_eq, predictionColor_eq]
    norm_num [effectiveValue]
  · rw [predictionColor_eq, predictionColor_eq]
    norm_num [effectiveValue]

/-- C2 at the values 10 and 100: the tier does not go down. -/
theorem predictionColor_buckets_witness :
    (10 : ℚ) ≤ 100 ∧
    heatTier (predictionColor (.num 10)) ≤ heatTier (predictionColor (.num 100)) :=
  ⟨by norm_num, predictionColor_buckets.2.1 10 100 (by norm_num)⟩

/-! ## Playback: proofs -/

theorem updateHour_selectedHourIndex (i : Nat) (s : State) :
    (updateHour i s).selectedHourIndex = i := rfl

theorem updateHour_hours (i : Nat) (s : State) : (updateHour i s).hours = s.hours := rfl

theorem updateHour_playTimer (i : Nat) (s : State) :
    (updateHour i s).playTimer = s.playTimer := rfl

theorem tickNext_eq (s : State) (h : s.selectedHourIndex < s.hours.length) :
    tickNext s = if s.selectedHourIndex < s.hours.length - 1 then s.selectedHourIndex + 1 else 0 := by
  unfold tickNext
  simp only
  split_ifs with h1 h2 h2 <;> omega

theorem tickNext_lt (s : State) (h : s.selectedHourIndex < s.hours.length) :
    tickNext s < s.hours.length := by
  rw [tickNext_eq s h]
  split_ifs <;> omega

theorem tick_iterate_lt (k : Nat) (s : State) (h : s.selectedHourIndex < s.hours.length) :
    (tick^[k] s).selectedHourIndex < s.hours.length ∧ (tick^[k] s).hours = s.hours := by
  induction k generalizing s with
  | zero => exact ⟨h, rfl⟩
  | succ n ih =>
    rw [Function.iterate_succ_apply]
    have h1 : (tick s).selectedHourIndex < (tick s).hours.length := by
      show tickNext s < s.hours.length
      exact tickNext_lt s h
    have := ih (tick s) h1
    exact ⟨this.1, this.2⟩

/-- C5: with a selected index `i` inside an hour list of length `n`, one playback tick calls
`updateHour` with `i + 1` when `i < n - 1` and with `0` when `i = n - 1`, that is with
`(i + 1) mod n`; the selected index is that value afterwards and stays below `n` after any
number of ticks; with three hours a tick from index 2 selects index 0. -/
theorem tick_wraps (s : State) (h : s.selectedHourIndex < s.hours.length) :
    tick s = updateHour
      (if s.selectedHourIndex < s.hours.length - 1 then s.selectedHourIndex + 1 else 0) s ∧
    tickNext s = (s.selectedHourIndex + 1) % s.hours.length ∧
    (tick s).selectedHourIndex = (s.selectedHourIndex + 1) % s.hours.length ∧
    (tick s).hours = s.hours ∧
    (∀ k : Nat, (tick^[k] s).selectedHourIndex < s.hours.length) ∧
    (s.hours.length = 3 → s.selectedHourIndex = 2 → (tick s).selectedHourIndex = 0) := by
  have hmod : tickNext s = (s.selectedHourIndex + 1) % s.hours.length := by
    rw [tickNext_eq s h]
    split_ifs with h1
    · rw [Nat.mod_eq_of_lt (by omega)]
    · have : s.selectedHourIndex + 1 = s.hours.length := by omega
      rw [this, Nat.mod_self]
  refine ⟨?_, hmod, ?_, rfl, fun k => (tick_iterate_lt k s h).1, ?_⟩
  · unfold tick
    rw [tickNext_eq s h]
  · show tickNext s = _
    exact hmod
  · intro h3 h2
    show tickNext s = 0
    rw [hmod, h3, h2]

/-- C5 on the three hours of the specification's example, playing from index 2. -/
theorem tick_wraps_witness :
    (tick { initialState with
        hours := [str "2024-01-01T00:00", str "2024-01-01T01:00", str "2024-01-01T02:00"]
        selectedHourIndex := 2 }).selectedHourIndex = 0 :=
  (tick_wraps { initialState with
        hours := [str "2024-01-01T00:00", str "2024-01-01T01:00", str "2024-01-01T02:00"]
        selectedHourIndex := 2 } (by decide)).2.2.2.2.2 rfl rfl

theorem stopPlayback_clears (w : World)
    (h : w.timers = w.state.playTimer.toList ∧ ∀ id, w.state.playTimer = some id → 0 < id) :
    (stopPlayback w).timers = [] ∧ (stopPlayback w).state.playTimer = none ∧
    (stopPlayback w).timerCounter = w.timerCounter := by
  obtain ⟨h1, h2⟩ := h
  unfold stopPlayback
  cases hp : w.state.playTimer with
  | none =>
    rw [hp] at h1
    simp [timerTruthy, hp, h1]
  | some id =>
    rw [hp] at h1
    have hpos := h2 id hp
    have hne : id ≠ 0 := by omega
    simp [timerTruthy, hne, clearInterval, h1]

theorem startPlayback_single (w : World)
    (h : w.timers = w.state.playTimer.toList ∧ ∀ id, w.state.playTimer = some id → 0 < id) :
    (startPlayback w).timers = [w.timerCounter + 1] ∧
    (startPlayback w).state.playTimer = some (w.timerCounter + 1) := by
  obtain ⟨h1, h2, h3⟩ := stopPlayback_clears w h
  unfold startPlayback setInterval
  simp [h1, h3]

theorem step_invariant (w : World) (e : Event)
    (h : w.timers = w.state.playTimer.toList ∧ ∀ id, w.state.playTimer = some id → 0 < id) :
    (step w e).timers = (step w e).state.playTimer.toList ∧
    ∀ id, (step w e).state.playTimer = some id → 0 < id := by
  have hstop := stopPlayback_clears w h
  have hstart := startPlayback_single w h
  have stopInv : (stopPlayback w).timers = (stopPlayback w).state.playTimer.toList ∧
      ∀ id, (stopPlayback w).state.playTimer = some id → 0 < id := by
    rw [hstop.1, hstop.2.1]
    simp
  have startInv : (startPlayback w).timers = (startPlayback w).state.playTimer.toList ∧
      ∀ id, (startPlayback w).state.playTimer = some id → 0 < id := by
    rw [hstart.1, hstart.2]
    simp
  cases e with
  | startPlayback => exact startInv
  | stopPlayback => exact stopInv
  | playClick =>
    simp only [step]
    split_ifs
    · exact stopInv
    · exact startInv
  | sliderInput value =>
    simp only [step, updateHour_playTimer]
    exact stopInv
  | timerFires =>
    simp only [step]
    split_ifs
    · exact h
    · simp only [tick, updateHour_playTimer]
      exact h

theorem run_invariant (events : List Event) (w : World)
    (h : w.timers = w.state.playTimer.toList ∧ ∀ id, w.state.playTimer = some id → 0 < id) :
    (run w events).timers = (run w events).state.playTimer.toList ∧
    ∀ id, (run w events).state.playTimer = some id → 0 < id := by
  induction events generalizing w with
  | nil => exact h
  | cons e es ih => exact ih (step w e) (step_invariant w e h)

/-- C8: in every state reached from the loaded page by any sequence of `startPlayback`,
`stopPlayback`, play-button click, slider-input and timer-firing events, at most one
interval timer is live, the live timers are exactly the handle in `state.playTimer` (so it is
non-null exactly when one timer is live); calling `startPlayback` twice in a row there
leaves exactly one live timer, and after a slider-input event no timer is live. -/
theorem playback_single_timer (zones : List ZoneFeature) (predictions : List ForecastRow)
    (counter : Nat) (events : List Event) :
    (run ⟨loadedState zones predictions, [], counter⟩ events).timers.length ≤ 1 ∧
    (run ⟨loadedState zones predictions, [], counter⟩ events).timers =
      (run ⟨loadedState zones predictions, [], counter⟩ events).state.playTimer.toList ∧
    ((run ⟨loadedState zones predictions, [], counter⟩ events).state.playTimer ≠ none ↔
      (run ⟨loadedState zones predictions, [], counter⟩ events).timers.length = 1) ∧
    (timerTruthy (run ⟨loadedState zones predictions, [], counter⟩ events).state.playTimer = true ↔
      (run ⟨loadedState zones predictions, [], counter⟩ events).timers.length = 1) ∧
    (startPlayback (startPlayback
      (run ⟨loadedState zones predictions, [], counter⟩ events))).timers.length = 1 ∧
    (∀ value : Nat,
      (step (run ⟨loadedState zones predictions, [], counter⟩ events)
        (.sliderInput value)).timers = []) := by
  have h0 : (⟨loadedState zones predictions, [], counter⟩ : World).timers =
      (⟨loadedState zones predictions, [], counter⟩ : World).state.playTimer.toList ∧
      ∀ id, (⟨loadedState zones predictions, [], counter⟩ : World).state.playTimer = some id →
        0 < id := by
    constructor
    · rfl
    · intro id hid
      exact absurd hid (by simp [loadedState, updateHour_playTimer, initialState])
  have hinv := run_invariant events _ h0
  generalize run ⟨loadedState zones predictions, [], counter⟩ events = w at hinv
  obtain ⟨h1, h2⟩ := hinv
  have hs1 := step_invariant w .startPlayback ⟨h1, h2⟩
  have hs2 := startPlayback_single (startPlayback w) hs1
  refine ⟨?_, h1, ?_, ?_, ?_, ?_⟩
  · rw [h1]
    cases w.state.playTimer <;> simp
  · rw [h1]
    cases w.state.playTimer <;> simp
  · rw [h1]
    cases hp : w.state.playTimer with
    | none => simp [timerTruthy]
    | some id =>
      have := h2 id hp
      have hne : id ≠ 0 := by omega
      simp [timerTruthy, hne]
  · rw [hs2.1]
    rfl
  · intro value
    exact (stopPlayback_clears w ⟨h1, h2⟩).1

/-! ## Loading: proofs -/

theorem fetchFirstAvailable_none_ok {β : Type} (fetch : String → FetchOutcome β)
    (urls : List String) (h : ∀ u ∈ urls, respondedOk (fetch u) = false) :
    fetchFirstAvailable fetch urls =
      (.error (.load "Could not load forecast file from known paths."), urls) := by
  induction urls with
  | nil => rfl
  | cons u rest ih =>
    have hu := h u (List.mem_cons_self _ _)
    have hrest := ih (fun v hv => h v (List.mem_cons_of_mem _ hv))
    unfold fetchFirstAvailable
    cases hf : fetch u with
    | success body => rw [hf] at hu; exact absurd hu (by simp [respondedOk])
    | unparsable => rw [hf] at hu; exact absurd hu (by simp [respondedOk])
    | badStatus status => simp [hrest]
    | transportFailure => simp [hrest]

theorem fetchFirstAvailable_skips {β : Type} (fetch : String → FetchOutcome β)
    (pre rest : List String) (hpre : ∀ u ∈ pre, respondedOk (fetch u) = false) :
    fetchFirstAvailable fetch (pre ++ rest) =
      ((fetchFirstAvailable fetch rest).1, pre ++ (fetchFirstAvailable fetch rest).2) := by
  induction pre with
  | nil => rfl
  | cons u us ih =>
    have hu := hpre u (List.mem_cons_self _ _)
    have hus := ih (fun v hv => hpre v (List.mem_cons_of_mem _ hv))
    show fetchFirstAvailable fetch (u :: (us ++ rest)) = _
    conv_lhs => unfold fetchFirstAvailable
    cases hf : fetch u with
    | success body => rw [hf] at hu; exact absurd hu (by simp [respondedOk])
    | unparsable => rw [hf] at hu; exact absurd hu (by simp [respondedOk])
    | badStatus status => simp [hus]
    | transportFailure => simp [hus]

theorem fetchFirstAvailable_load_iff {β : Type} (fetch : String → FetchOutcome β)
    (urls : List String) :
    (∃ message, (fetchFirstAvailable fetch urls).1 = .error (.load message)) ↔
      ∀ u ∈ urls, respondedOk (fetch u) = false := by
  constructor
  · induction urls with
    | nil => intro _ u hu; exact absurd hu (List.not_mem_nil u)
    | cons u rest ih =>
      intro he v hv
      unfold fetchFirstAvailable at he
      cases hf : fetch u with
      | success body =>
        rw [hf] at he
        obtain ⟨e, he⟩ := he
        cases he
      | unparsable =>
        rw [hf] at he
        obtain ⟨e, he⟩ := he
        cases he
      | badStatus status =>
        rw [hf] at he
        rcases List.mem_cons.mp hv with rfl | hv
        · rw [hf]; rfl
        · exact ih he v hv
      | transportFailure =>
        rw [hf] at he
        rcases List.mem_cons.mp hv with rfl | hv
        · rw [hf]; rfl
        · exact ih he v hv
  · intro h
    rw [fetchFirstAvailable_none_ok fetch urls h]
    exact ⟨_, rfl⟩

theorem init_of_no_body (zones : Option (List ZoneFeature))
    (fetch : String → FetchOutcome (List ForecastRow)) (overlay : Option Overlay)
    (counter : Nat)
    (h : ∀ body, (fetchFirstAvailable fetch FORECAST_URLS).1 ≠ .ok body) :
    (init zones fetch overlay counter).world = none ∧
    (init zones fetch overlay counter).calls = [.consoleError, .showLoadingError] ∧
    (init zones fetch overlay counter).overlay =
      overlay.map (fun _ => { hidden := false, error := true }) := by
  unfold init
  cases hr : (fetchFirstAvailable fetch FORECAST_URLS).1 with
  | ok body => exact absurd hr (h body)
  | error e => cases zones <;> simp [showLoadingError, hr]

/-- C7, refuted as stated: the first forecast candidate answers with status 200 (`res.ok`) and
a body that is not JSON, the second one serves a valid forecast. `fetchFirstAvailable`
requests the first URL only and fails with the parse error: it returns no body although a
candidate succeeds, and what it throws is not the load error. -/
theorem fetchFirstAvailable_unparsable_first :
    respondedOk (fallbackPageFetch "./data/forecast_latest.json") = true ∧
    fallbackPageFetch "/data/forecast/forecast_latest.json" = .success sampleForecast ∧
    fetchFirstAvailable fallbackPageFetch FORECAST_URLS =
      (.error .parse, ["./data/forecast_latest.json"]) ∧
    (¬ ∃ body, (fetchFirstAvailable fallbackPageFetch FORECAST_URLS).1 = .ok body) ∧
    (¬ ∃ message,
      (fetchFirstAvailable fallbackPageFetch FORECAST_URLS).1 = .error (.load message)) := by
  have h1 : fallbackPageFetch "./data/forecast_latest.json" = .unparsable := by
    simp [fallbackPageFetch]
  have h2 : fallbackPageFetch "/data/forecast/forecast_latest.json" =
      .success sampleForecast := by
    simp [fallbackPageFetch]
  have h3 : fetchFirstAvailable fallbackPageFetch FORECAST_URLS =
      (.error .parse, ["./data/forecast_latest.json"]) := by
    simp [FORECAST_URLS, fetchFirstAvailable, h1]
  refine ⟨by rw [h1]; rfl, h2, h3, ?_, ?_⟩
  · rw [h3]
    rintro ⟨body, hb⟩
    cases hb
  · rw [h3]
    rintro ⟨message, hm⟩
    cases hm

/-- C7, amended: `fetchFirstAvailable` requests the URLs in list order, passes over every
response with a non-success status and every transport failure, and stops at the first URL
that responds with `res.ok`, requesting no later URL: it returns that response's parsed body,
or fails with the parse error when that body is not JSON. It throws the load error exactly
when no URL of the list responds with `res.ok`, and then every URL was requested. Whenever
`fetchFirstAvailable` returns no body (in particular when both forecast candidates fail),
`init` calls neither `updateHour` nor `renderMap`, leaves no loaded state, and its `catch`
handler calls `showLoadingError`, which puts the overlay element (when the page has one)
into its visible error state. -/
theorem fetchFirstAvailable_contract :
    (∀ (fetch : String → FetchOutcome (List ForecastRow)) (pre : List String) (url : String)
      (post : List String) (body : List ForecastRow),
      (∀ u ∈ pre, respondedOk (fetch u) = false) → fetch url = .success body →
      fetchFirstAvailable fetch (pre ++ url :: post) = (.ok body, pre ++ [url])) ∧
    (∀ (fetch : String → FetchOutcome (List ForecastRow)) (pre : List String) (url : String)
      (post : List String),
      (∀ u ∈ pre, respondedOk (fetch u) = false) → fetch url = .unparsable →
      fetchFirstAvailable fetch (pre ++ url :: post) = (.error .parse, pre ++ [url])) ∧
    (∀ (fetch : String → FetchOutcome (List ForecastRow)) (urls : List String),
      ((∃ message, (fetchFirstAvailable fetch urls).1 = .error (.load message)) ↔
        ∀ u ∈ urls, respondedOk (fetch u) = false)) ∧
    (∀ (fetch : String → FetchOutcome (List ForecastRow)) (urls : List String),
      (∀ u ∈ urls, respondedOk (fetch u) = false) →
      fetchFirstAvailable fetch urls =
        (.error (.load "Could not load forecast file from known paths."), urls)) ∧
    (∀ (zones : Option (List ZoneFeature)) (fetch : String → FetchOutcome (List ForecastRow))
      (overlay : Option Overlay) (counter : Nat),
      (∀ body, (fetchFirstAvailable fetch FORECAST_URLS).1 ≠ .ok body) →
      (init zones fetch overlay counter).world = none ∧
      (init zones fetch overlay counter).calls = [.consoleError, .showLoadingError] ∧
      (∀ i, Call.updateHour i ∉ (init zones fetch overlay counter).calls) ∧
      Call.renderMap ∉ (init zones fetch overlay counter).calls ∧
      Call.showLoadingError ∈ (init zones fetch overlay counter).calls ∧
      (init zones fetch overlay counter).overlay =
        overlay.map (fun _ => { hidden := false, error := true })) ∧
    (∀ (zones : Option (List ZoneFeature)) (fetch : String → FetchOutcome (List ForecastRow))
      (overlay : Option Overlay) (counter : Nat),
      (∀ u ∈ FORECAST_URLS, respondedOk (fetch u) = false) →
      (init zones fetch overlay counter).world = none ∧
      (init zones fetch overlay counter).calls = [.consoleError, .showLoadingError] ∧
      (init zones fetch overlay counter).requested = FORECAST_URLS ∧
      (init zones fetch overlay counter).overlay =
        overlay.map (fun _ => { hidden := false, error := true })) := by
  refine ⟨?_, ?_, fun fetch urls => fetchFirstAvailable_load_iff fetch urls,
    fun fetch urls h => fetchFirstAvailable_none_ok fetch urls h, ?_, ?_⟩
  · intro fetch pre url post body hpre hurl
    rw [fetchFirstAvailable_skips fetch pre (url :: post) hpre]
    have : fetchFirstAvailable fetch (url :: post) = (.ok body, [url]) := by
      unfold fetchFirstAvailable
      simp [hurl]
    rw [this]
  · intro fetch pre url post hpre hurl
    rw [fetchFirstAvailable_skips fetch pre (url :: post) hpre]
    have : fetchFirstAvailable fetch (url :: post) = (.error .parse, [url]) := by
      unfold fetchFirstAvailable
      simp [hurl]
    rw [this]
  · intro zones fetch overlay counter h
    obtain ⟨h1, h2, h3⟩ := init_of_no_body zones fetch overlay counter h
    refine ⟨h1, h2, ?_, ?_, ?_, h3⟩
    · intro i
      rw [h2]
      simp
    · rw [h2]
      simp
    · rw [h2]
      simp
  · intro zones fetch overlay counter h
    have hf := fetchFirstAvailable_none_ok fetch FORECAST_URLS h
    have hno : ∀ body, (fetchFirstAvailable fetch FORECAST_URLS).1 ≠ .ok body := by
      intro body hb
      rw [hf] at hb
      cases hb
    obtain ⟨h1, h2, h3⟩ := init_of_no_body zones fetch overlay counter hno
    refine ⟨h1, h2, ?_, h3⟩
    unfold init
    rw [hf]
    cases zones <;> rfl

/-- C7 with both forecast candidates failing (a 404 and a transport failure): both URLs are
requested and the start-up ends in the error overlay. -/
theorem fetchFirstAvailable_contract_witness :
    (∀ u ∈ FORECAST_URLS, respondedOk (failingFetch u) = false) ∧
    (init (some sampleZones) failingFetch (some ⟨false, false⟩) 0).requested = FORECAST_URLS ∧
    (init (some sampleZones) failingFetch (some ⟨false, false⟩) 0).overlay =
      some ⟨false, true⟩ :=
  ⟨by decide,
   (fetchFirstAvailable_contract.2.2.2.2.2 (some sampleZones) failingFetch
      (some ⟨false, false⟩) 0 (by decide)).2.2.1,
   (fetchFirstAvailable_contract.2.2.2.2.2 (some sampleZones) failingFetch
      (some ⟨false, false⟩) 0 (by decide)).2.2.2⟩

/-! ## Per-hour lookup: proofs -/

theorem mapGet_mapSet (m : JSMap) (k : Int) (v : ℚ) (z : Int) :
    mapGet (mapSet m k v) z = if k = z then .num v else mapGet m z := by
  induction m with
  | nil => simp [mapSet, mapGet]
  | cons e rest ih =>
    obtain ⟨k0, v0⟩ := e
    by_cases h0 : k0 = k
    · subst h0
      by_cases hz : k0 = z <;> simp [mapSet, mapGet, hz]
    · by_cases hz : k0 = z
      · subst hz
        have hne : ¬ k = k0 := fun h => h0 h.symm
        simp [mapSet, mapGet, h0, hne]
      · simp [mapSet, mapGet, h0, hz, ih]

theorem mem_mapKeys_mapSet (m : JSMap) (k : Int) (v : ℚ) (z : Int) :
    z ∈ mapKeys (mapSet m k v) ↔ z = k ∨ z ∈ mapKeys m := by
  induction m with
  | nil => simp [mapSet, mapKeys]
  | cons e rest ih =>
    obtain ⟨k0, v0⟩ := e
    by_cases h0 : k0 = k
    · subst h0
      simp [mapSet, mapKeys]
    · simp only [mapKeys] at ih
      simp only [mapSet, h0, if_false, mapKeys, List.map_cons, List.mem_cons, ih]
      tauto

theorem nodup_mapKeys_mapSet (m : JSMap) (k : Int) (v : ℚ) (h : (mapKeys m).Nodup) :
    (mapKeys (mapSet m k v)).Nodup := by
  induction m with
  | nil => simp [mapSet, mapKeys]
  | cons e rest ih =>
    obtain ⟨k0, v0⟩ := e
    have hn : k0 ∉ mapKeys rest ∧ (mapKeys rest).Nodup := by
      simpa [mapKeys] using h
    by_cases h0 : k0 = k
    · subst h0
      simpa [mapSet, mapKeys] using h
    · have hmem := mem_mapKeys_mapSet rest k v k0
      have hnot : k0 ∉ mapKeys (mapSet rest k v) := by
        rw [hmem]
        exact fun hc => hc.elim h0 hn.1
      have := ih hn.2
      simp only [mapSet, h0, if_false]
      exact List.nodup_cons.mpr ⟨hnot, this⟩

theorem mapGet_undefined_iff (m : JSMap) (z : Int) :
    mapGet m z = .undefined ↔ z ∉ mapKeys m := by
  induction m with
  | nil => simp [mapGet, mapKeys]
  | cons e rest ih =>
    obtain ⟨k0, v0⟩ := e
    by_cases hz : k0 = z
    · subst hz
      simp [mapGet, mapKeys]
    · have hz2 : ¬ z = k0 := fun h => hz h.symm
      simp only [mapKeys] at ih
      simp [mapGet, mapKeys, hz, hz2, ih]

theorem foldl_mapSet_keys (es : List (Int × ℚ)) (m : JSMap) (z : Int) :
    z ∈ mapKeys (es.foldl (fun m e => mapSet m e.1 e.2) m) ↔
      z ∈ mapKeys m ∨ z ∈ es.map Prod.fst := by
  induction es generalizing m with
  | nil => simp
  | cons e rest ih =>
    simp only [List.foldl_cons, ih, mem_mapKeys_mapSet, List.map_cons, List.mem_cons]
    tauto

theorem foldl_mapSet_nodup (es : List (Int × ℚ)) (m : JSMap) (h : (mapKeys m).Nodup) :
    (mapKeys (es.foldl (fun m e => mapSet m e.1 e.2) m)).Nodup := by
  induction es generalizing m with
  | nil => exact h
  | cons e rest ih => exact ih _ (nodup_mapKeys_mapSet m e.1 e.2 h)

theorem foldl_mapSet_get_of_not_mem (es : List (Int × ℚ)) (m : JSMap) (z : Int)
    (h : z ∉ es.map Prod.fst) :
    mapGet (es.foldl (fun m e => mapSet m e.1 e.2) m) z = mapGet m z := by
  induction es generalizing m with
  | nil => rfl
  | cons e rest ih =>
    have h1 : ¬ e.1 = z := fun hc => h (by simp [hc.symm])
    have h2 : z ∉ rest.map Prod.fst := fun hc => h (by simp at hc ⊢; exact Or.inr hc)
    simp only [List.foldl_cons]
    rw [ih _ h2, mapGet_mapSet, if_neg h1]

theorem foldl_mapSet_get_last (pre post : List (Int × ℚ)) (k : Int) (v : ℚ) (m : JSMap)
    (h : k ∉ post.map Prod.fst) :
    mapGet ((pre ++ (k, v) :: post).foldl (fun m e => mapSet m e.1 e.2) m) k = .num v := by
  rw [List.foldl_append, List.foldl_cons, foldl_mapSet_get_of_not_mem post _ k h, mapGet_mapSet]
  simp

theorem foldl_mapSet_get_mem (es : List (Int × ℚ)) (m : JSMap) (z : Int) (v : ℚ)
    (h : mapGet (es.foldl (fun m e => mapSet m e.1 e.2) m) z = .num v) :
    mapGet m z = .num v ∨ (z, v) ∈ es := by
  induction es generalizing m with
  | nil => exact Or.inl h
  | cons e rest ih =>
    simp only [List.foldl_cons] at h
    rcases ih _ h with h1 | h1
    · rw [mapGet_mapSet] at h1
      by_cases hk : e.1 = z
      · rw [if_pos hk] at h1
        have hv : e.2 = v := by injection h1
        right
        rw [← hk, ← hv]
        exact List.mem_cons_self _ _
      · rw [if_neg hk] at h1
        exact Or.inl h1
    · exact Or.inr (List.mem_cons_of_mem _ h1)

theorem lookup_after_updateHour (i : Nat) (s : State) :
    (updateHour i s).lookup =
      mapFromEntries ((s.forecast.filter (fun p => decide (some p.hour = s.hours[i]?))).map
        (fun r => (r.PULocationID, r.prediction))) := rfl

/-- C1: for a valid hour index `i`, after `updateHour(i)` the selected index is `i`, and the
lookup is the one of hour `hours[i]`: its keys are exactly the zone ids of the forecast rows
of that hour (each key once), every key is mapped to the predicted value of a row of that hour
with that zone id (the last such row of the forecast), so every row of the hour whose zone id
has one predicted value in that hour is found under its zone id with its value, and a zone
with no row in that hour is absent. -/
theorem updateHour_lookup (s : State) (i : Nat) (h : i < s.hours.length) :
    (updateHour i s).selectedHourIndex = i ∧
    (updateHour i s).hours = s.hours ∧
    (updateHour i s).forecast = s.forecast ∧
    (∀ z : Int, z ∈ mapKeys (updateHour i s).lookup ↔
      ∃ r ∈ s.forecast, r.hour = s.hours[i] ∧ r.PULocationID = z) ∧
    (mapKeys (updateHour i s).lookup).Nodup ∧
    (∀ z ∈ mapKeys (updateHour i s).lookup,
      ∃ r ∈ s.forecast, r.hour = s.hours[i] ∧ r.PULocationID = z ∧
        mapGet (updateHour i s).lookup z = .num r.prediction) ∧
    (∀ (pre : List ForecastRow) (r : ForecastRow) (post : List ForecastRow),
      s.forecast = pre ++ r :: post → r.hour = s.hours[i] →
      (∀ q ∈ post, q.hour = s.hours[i] → q.PULocationID ≠ r.PULocationID) →
      mapGet (updateHour i s).lookup r.PULocationID = .num r.prediction) ∧
    (∀ r ∈ s.forecast, r.hour = s.hours[i] →
      (∀ q ∈ s.forecast, q.hour = s.hours[i] → q.PULocationID = r.PULocationID →
        q.prediction = r.prediction) →
      mapGet (updateHour i s).lookup r.PULocationID = .num r.prediction) ∧
    (∀ z : Int, (¬ ∃ r ∈ s.forecast, r.hour = s.hours[i] ∧ r.PULocationID = z) →
      mapGet (updateHour i s).lookup z = .undefined) := by
  have hget : s.hours[i]? = some s.hours[i] := List.getElem?_eq_getElem h
  have hkeys : ∀ z : Int, z ∈ mapKeys (updateHour i s).lookup ↔
      ∃ r ∈ s.forecast, r.hour = s.hours[i] ∧ r.PULocationID = z := by
    intro z
    rw [lookup_after_updateHour, mapFromEntries, foldl_mapSet_keys, hget]
    simp only [mapKeys, List.map_nil, List.not_mem_nil, false_or, List.map_map, List.mem_map,
      List.mem_filter, decide_eq_true_eq, Option.some.injEq, Function.comp]
    constructor
    · rintro ⟨r, ⟨hr, hh⟩, rfl⟩
      exact ⟨r, hr, hh, rfl⟩
    · rintro ⟨r, hr, hh, rfl⟩
      exact ⟨r, ⟨hr, hh⟩, rfl⟩
  have hval : ∀ z ∈ mapKeys (updateHour i s).lookup,
      ∃ r ∈ s.forecast, r.hour = s.hours[i] ∧ r.PULocationID = z ∧
        mapGet (updateHour i s).lookup z = .num r.prediction := by
    intro z hz
    have hdef : mapGet (updateHour i s).lookup z ≠ .undefined :=
      fun hc => (mapGet_undefined_iff _ z).mp hc hz
    cases hv : mapGet (updateHour i s).lookup z with
    | undefined => exact absurd hv hdef
    | nan =>
      exfalso
      have : ∀ (m : JSMap), mapGet m z ≠ .nan := by
        intro m
        induction m with
        | nil => simp [mapGet]
        | cons e rest ih =>
          obtain ⟨k0, v0⟩ := e
          by_cases hk : k0 = z <;> simp [mapGet, hk, ih]
      exact this _ hv
    | num v =>
      have hv2 := hv
      rw [lookup_after_updateHour, mapFromEntries, hget] at hv2
      rcases foldl_mapSet_get_mem _ _ z v hv2 with h1 | h1
      · simp [mapGet] at h1
      · simp only [List.mem_map, List.mem_filter, decide_eq_true_eq, Option.some.injEq,
          Prod.mk.injEq] at h1
        obtain ⟨r, ⟨hr, hh⟩, hid, hp⟩ := h1
        exact ⟨r, hr, hh, hid, by rw [hp]⟩
  refine ⟨rfl, rfl, rfl, hkeys, ?_, hval, ?_, ?_, ?_⟩
  · rw [lookup_after_updateHour, mapFromEntries]
    exact foldl_mapSet_nodup _ [] (by simp [mapKeys])
  · intro pre r post hsplit hh hpost
    rw [lookup_after_updateHour, mapFromEntries, hget, hsplit, List.filter_append,
      List.filter_cons]
    have hdec : decide (some r.hour = some s.hours[i]) = true := by simp [hh]
    rw [hdec]
    simp only [if_true, List.map_append, List.map_cons]
    apply foldl_mapSet_get_last
    simp only [List.map_map, List.mem_map, List.mem_filter, decide_eq_true_eq,
      Option.some.injEq, Function.comp, not_exists, not_and, and_imp]
    intro q hq hqh
    exact hpost q hq hqh
  · intro r hr hh huniq
    obtain ⟨q, hq, hqh, hqid, hqv⟩ := hval r.PULocationID ((hkeys _).mpr ⟨r, hr, hh, rfl⟩)
    rw [hqv, huniq q hq hqh hqid]
  · intro z hz
    exact (mapGet_undefined_iff _ z).mpr (fun hc => hz ((hkeys z).mp hc))

/-! ## Top zones: proofs -/

theorem sortByPrediction_sorted (rows : List ForecastRow) :
    (sortByPrediction rows).Sorted (fun a b => a.prediction ≥ b.prediction) := by
  haveI : IsTotal ForecastRow (fun a b => a.prediction ≥ b.prediction) :=
    ⟨fun a b => le_total b.prediction a.prediction⟩
  haveI : IsTrans ForecastRow (fun a b => a.prediction ≥ b.prediction) :=
    ⟨fun a b c hab hbc => le_trans hbc hab⟩
  exact List.sorted_insertionSort _ rows

theorem sortByPrediction_perm (rows : List ForecastRow) :
    (sortByPrediction rows).Perm rows :=
  List.perm_insertionSort _ rows

/-- C6: the top-zones list written by `updateStats` has `min(5, number of rows)` entries, is in
non-increasing order of predicted value, and together with some list of remaining rows it is a
rearrangement of the hour's rows, every listed row having a value at least that of every
remaining row; after `updateHour(i)` the rows in question are the forecast rows of hour
`hours[i]`. -/
theorem updateStats_topZones (hour : Option JSString) (s : State) :
    (updateStats hour s).topZones.length = min 5 s.currentRows.length ∧
    (updateStats hour s).topZones.Sorted (fun a b => a.prediction ≥ b.prediction) ∧
    (∃ rest : List ForecastRow,
      ((updateStats hour s).topZones ++ rest).Perm s.currentRows ∧
      ∀ a ∈ (updateStats hour s).topZones, ∀ b ∈ rest, a.prediction ≥ b.prediction) ∧
    (∀ i : Nat, ∃ rest : List ForecastRow,
      ((updateHour i s).topZones ++ rest).Perm
        (s.forecast.filter (fun p => decide (some p.hour = s.hours[i]?))) ∧
      (updateHour i s).topZones.length =
        min 5 (s.forecast.filter (fun p => decide (some p.hour = s.hours[i]?))).length ∧
      (updateHour i s).topZones.Sorted (fun a b => a.prediction ≥ b.prediction) ∧
      ∀ a ∈ (updateHour i s).topZones, ∀ b ∈ rest, a.prediction ≥ b.prediction) := by
  have key : ∀ rows : List ForecastRow,
      ((sortByPrediction rows).take 5).length = min 5 rows.length ∧
      ((sortByPrediction rows).take 5).Sorted (fun a b => a.prediction ≥ b.prediction) ∧
      (((sortByPrediction rows).take 5) ++ (sortByPrediction rows).drop 5).Perm rows ∧
      ∀ a ∈ (sortByPrediction rows).take 5, ∀ b ∈ (sortByPrediction rows).drop 5,
        a.prediction ≥ b.prediction := by
    intro rows
    have hs := sortByPrediction_sorted rows
    have hp := sortByPrediction_perm rows
    have hsplit : (sortByPrediction rows).take 5 ++ (sortByPrediction rows).drop 5 =
        sortByPrediction rows := List.take_append_drop 5 _
    refine ⟨?_, ?_, ?_, ?_⟩
    · rw [List.length_take, hp.length_eq]
    · exact List.Pairwise.sublist (List.take_sublist 5 _) hs
    · rw [hsplit]
      exact hp
    · have hs2 : ((sortByPrediction rows).take 5 ++ (sortByPrediction rows).drop 5).Pairwise
          (fun a b => a.prediction ≥ b.prediction) := by
        rw [hsplit]
        exact hs
      exact (List.pairwise_append.mp hs2).2.2
  refine ⟨(key s.currentRows).1, (key s.currentRows).2.1,
    ⟨_, (key s.currentRows).2.2.1, (key s.currentRows).2.2.2⟩, ?_⟩
  intro i
  have k := key (s.forecast.filter (fun p => decide (some p.hour = s.hours[i]?)))
  exact ⟨_, k.2.2.1, k.1, k.2.1, k.2.2.2⟩

/-! ## Hour list: proofs -/

theorem strLe_total (a b : JSString) : strLe a b = true ∨ strLe b a = true := by
  induction a generalizing b with
  | nil => exact Or.inl (by simp [strLe])
  | cons x xs ih =>
    cases b with
    | nil => exact Or.inr (by simp [strLe])
    | cons y ys =>
      rcases Nat.lt_trichotomy x y with hlt | heq | hgt
      · exact Or.inl (by simp [strLe, hlt])
      · subst heq
        simpa [strLe] using ih ys
      · exact Or.inr (by simp [strLe, hgt])

theorem strLe_trans (a b c : JSString) (hab : strLe a b = true) (hbc : strLe b c = true) :
    strLe a c = true := by
  induction a generalizing b c with
  | nil => simp [strLe]
  | cons x xs ih =>
    cases b with
    | nil => simp [strLe] at hab
    | cons y ys =>
      cases c with
      | nil => simp [strLe] at hbc
      | cons z zs =>
        simp only [strLe] at hab hbc ⊢
        by_cases hxy : x < y
        · by_cases hyz : y < z
          · have : x < z := lt_trans hxy hyz
            simp [this]
          · simp only [hyz, if_false] at hbc
            by_cases hzy : z < y
            · simp [hzy] at hbc
            · have : y = z := by omega
              subst this
              simp [hxy]
        · simp only [hxy, if_false] at hab
          by_cases hyx : y < x
          · simp [hyx] at hab
          · have hxy2 : x = y := by omega
            subst hxy2
            simp only [hyx, if_false] at hab
            by_cases hxz : x < z
            · simp [hxz]
            · simp only [hxz, if_false] at hbc ⊢
              by_cases hzx : z < x
              · simp [hzx] at hbc
              · simp only [hzx, if_false] at hbc ⊢
                exact ih ys zs hab hbc

theorem foldl_setInsert (values acc : List JSString) (h : acc.Nodup) :
    (values.foldl (fun acc x => if x ∈ acc then acc else acc ++ [x]) acc).Nodup ∧
    ∀ x, x ∈ values.foldl (fun acc x => if x ∈ acc then acc else acc ++ [x]) acc ↔
      x ∈ acc ∨ x ∈ values := by
  induction values generalizing acc with
  | nil => exact ⟨h, fun x => by simp⟩
  | cons v rest ih =>
    simp only [List.foldl_cons]
    by_cases hv : v ∈ acc
    · rw [if_pos hv]
      refine ⟨(ih acc h).1, fun x => ?_⟩
      rw [(ih acc h).2 x, List.mem_cons]
      constructor
      · rintro (h1 | h1)
        · exact Or.inl h1
        · exact Or.inr (Or.inr h1)
      · rintro (h1 | h1 | h1)
        · exact Or.inl h1
        · exact Or.inl (h1 ▸ hv)
        · exact Or.inr h1
    · rw [if_neg hv]
      have hnd : (acc ++ [v]).Nodup := by
        rw [List.nodup_append]
        refine ⟨h, List.nodup_singleton v, ?_⟩
        intro a ha hb
        rw [List.mem_singleton] at hb
        exact hv (hb ▸ ha)
      refine ⟨(ih _ hnd).1, fun x => ?_⟩
      rw [(ih _ hnd).2 x, List.mem_append, List.mem_singleton, List.mem_cons]
      tauto

/-- C9: the hour list computed at initialization has no duplicates, is sorted in ascending
order of the strings (so strictly ascending), and its elements are exactly the hour values
that occur in `forecast.predictions`. -/
theorem computeHours_distinct_sorted (zones : List ZoneFeature) (predictions : List ForecastRow) :
    (loadedState zones predictions).hours = computeHours predictions ∧
    (computeHours predictions).Nodup ∧
    (computeHours predictions).Sorted (fun a b => strLe a b = true) ∧
    (computeHours predictions).Sorted (fun a b => strLe a b = true ∧ a ≠ b) ∧
    (∀ hour : JSString, hour ∈ computeHours predictions ↔ ∃ p ∈ predictions, p.hour = hour) := by
  haveI : IsTotal JSString (fun a b => strLe a b = true) := ⟨strLe_total⟩
  haveI : IsTrans JSString (fun a b => strLe a b = true) := ⟨strLe_trans⟩
  have hset := foldl_setInsert (predictions.map (fun p => p.hour)) [] List.nodup_nil
  have hperm : (computeHours predictions).Perm
      (setFromValues (predictions.map (fun p => p.hour))) := List.perm_insertionSort _ _
  have hnd : (computeHours predictions).Nodup := hperm.nodup_iff.mpr hset.1
  have hsorted : (computeHours predictions).Sorted (fun a b => strLe a b = true) :=
    List.sorted_insertionSort _ _
  refine ⟨rfl, hnd, hsorted, List.Pairwise.and hsorted hnd, fun hour => ?_⟩
  rw [hperm.mem_iff]
  unfold setFromValues
  rw [hset.2 hour]
  simp

/-- C1 on the sample data at hour index 0: zone 2 is a key of the lookup exactly because the
forecast has a row of that hour for it. -/
theorem updateHour_lookup_witness :
    0 < sampleState.hours.length ∧
    (updateHour 0 sampleState).selectedHourIndex = 0 ∧
    ((2 : Int) ∈ mapKeys (updateHour 0 sampleState).lookup ↔
      ∃ r ∈ sampleState.forecast, r.hour = sampleState.hours[0] ∧ r.PULocationID = 2) :=
  ⟨by decide, (updateHour_lookup sampleState 0 (by decide)).1,
   (updateHour_lookup sampleState 0 (by decide)).2.2.2.1 2⟩

/-! ## Elevation: proofs -/

theorem getElevation_cases (root : ℚ → ℚ) (s : State) (f : ZoneFeature) :
    (mapGet s.lookup f.PULocationID = .undefined →
      getElevation root s f = .num (root 0 * 35)) ∧
    (∀ v : ℚ, mapGet s.lookup f.PULocationID = .num v → 0 ≤ v →
      getElevation root s f = .num (root v * 35)) ∧
    (∀ v : ℚ, mapGet s.lookup f.PULocationID = .num v → v < 0 →
      getElevation root s f = .nan) := by
  refine ⟨fun h => ?_, fun v h hv => ?_, fun v h hv => ?_⟩
  · simp [getElevation, h, orZero, mathSqrt, toNumber, jsTimes]
  · by_cases h0 : v = 0
    · subst h0
      simp [getElevation, h, orZero, mathSqrt, toNumber, jsTimes]
    · have hn : ¬ v < 0 := not_lt.mpr hv
      simp [getElevation, h, orZero, mathSqrt, toNumber, jsTimes, h0, hn]
  · have h0 : v ≠ 0 := ne_of_lt hv
    simp [getElevation, h, orZero, mathSqrt, toNumber, jsTimes, h0, hv]

/-- C3, the code at a negative value: in the sample forecast zone 1 has the predicted value -4
in the second hour; with that hour selected the lookup holds -4 for zone 1, `getElevation`
returns `NaN` for the zone and not 0, whatever the square root does on the non-negative
numbers, while `getFillColor` gives the zone the colour of the value 0. -/
theorem getElevation_negative_is_nan (root : ℚ → ℚ) :
    mapGet (updateHour 1 sampleState).lookup 1 = .num (-4) ∧
    getElevation root (updateHour 1 sampleState) ⟨1, none⟩ = .nan ∧
    getElevation root (updateHour 1 sampleState) ⟨1, none⟩ ≠ .num 0 ∧
    getFillColor (updateHour 1 sampleState) ⟨1, none⟩ = predictionColor (.num 0) := by
  have h : (updateHour 1 sampleState).lookup = [(1, -4)] := by decide
  have hg : mapGet (updateHour 1 sampleState).lookup 1 = .num (-4) := by
    rw [h]
    simp [mapGet]
  have hnan := (getElevation_cases root (updateHour 1 sampleState) ⟨1, none⟩).2.2 (-4) hg
    (by norm_num)
  refine ⟨hg, hnan, ?_, ?_⟩
  · rw [hnan]
    exact fun hc => by cases hc
  · have hc : getFillColor (updateHour 1 sampleState) ⟨1, none⟩ =
        predictionColor (orZero (.num (-4))) := by
      simp only [getFillColor, hg]
    rw [hc, predictionColor_eq, predictionColor_eq]
    norm_num [orZero, effectiveValue]

/-! ## The sample data, evaluated -/

theorem sample_hours :
    sampleState.hours = [str "2024-01-01T00:00", str "2024-01-01T01:00"] := by
  decide

theorem sample_lookup : sampleState.lookup = [(1, 100), (2, 30)] := by
  decide

theorem sample_topZones :
    sampleState.topZones =
      [⟨1, str "2024-01-01T00:00", 100⟩, ⟨2, str "2024-01-01T00:00", 30⟩] := by
  decide

theorem sample_playback :
    (run ⟨sampleState, [], 0⟩ [.startPlayback, .startPlayback, .timerFires]).timers = [2] ∧
    (run ⟨sampleState, [], 0⟩
      [.startPlayback, .startPlayback, .timerFires]).state.selectedHourIndex = 1 ∧
    (run ⟨sampleState, [], 0⟩
      [.startPlayback, .timerFires, .timerFires]).state.selectedHourIndex = 0 ∧
    (run ⟨sampleState, [], 0⟩ [.playClick, .sliderInput 1]).timers = [] := by
  decide

end RideCasts
